import Mathlib

/-!
Shallow embedding of the PS/2 keyboard driver
(modules/axhal/src/platform/x86_pc/ps2_controller.rs).

Machine integers (u8, usize) are modelled as Nat; the driver never
relies on wraparound (all arithmetic is `% BUFFER_SIZE` explicitly).
The fixed array `inner: [u8; 128]` is modelled as a total function
`Nat → Nat`; only indices below `BUFFER_SIZE` are ever used, which is
proved as the bounds invariant. Mutating methods are modelled as
state-passing functions. The global KEYBOARD instance becomes an
explicit `KeyBoard` argument.
-/

def BUFFER_SIZE : Nat := 128

structure RingBuffer where
  head : Nat
  tail : Nat
  inner : Nat → Nat

def RingBuffer.new : RingBuffer :=
  { head := 0, tail := 0, inner := fun _ => 0 }

def RingBuffer.read (self : RingBuffer) : Option Nat × RingBuffer :=
  if self.head = self.tail then
    (none, self)
  else
    let tmp_pos := self.head
    (some (self.inner tmp_pos), { self with head := (self.head + 1) % BUFFER_SIZE })

def RingBuffer.write (self : RingBuffer) (data : Nat) : RingBuffer :=
  let tmp_pos := (self.tail + 1) % BUFFER_SIZE
  if tmp_pos = self.head then
    self
  else
    { self with
        inner := fun i => if i = self.tail then data else self.inner i,
        tail := tmp_pos }

structure KeyBoard where
  buffer : RingBuffer
  is_capslock : Bool
  is_shifted_l : Bool
  is_shifted_r : Bool

def KeyBoard.new : KeyBoard :=
  { buffer := RingBuffer.new,
    is_capslock := false,
    is_shifted_l := false,
    is_shifted_r := false }

def KeyBoard.is_shifted (self : KeyBoard) : Bool :=
  self.is_shifted_l || self.is_shifted_r

/-- Match arms are tried in source order, so the second `0x36` arm of the
Rust `match` (apparently intended as `0xb6`) is unreachable; the nested
`if` chain reproduces that first-arm-wins semantics faithfully. -/
def KeyBoard.check_status_n_change (self : KeyBoard) (scancode : Nat) : KeyBoard :=
  if scancode = 0x2a then { self with is_shifted_l := true }
  else if scancode = 0x36 then { self with is_shifted_r := true }
  else if scancode = 0x3a then { self with is_capslock := !self.is_capslock }
  else if scancode = 0xaa then { self with is_shifted_l := false }
  else if scancode = 0x36 then { self with is_shifted_r := false }
  else self

def KeyBoard.getchar (self : KeyBoard) : Option Nat × KeyBoard :=
  let r := self.buffer.read
  (r.1, { self with buffer := r.2 })

structure KeyCode where
  ascii1 : Nat
  ascii2 : Nat
  scode : Nat
  kcode : Nat
deriving DecidableEq

/-- The static scancode table, 94 entries (bytes written in hex). -/
def KEY_MAP : List KeyCode := [
  KeyCode.mk 0 0 0 0,                 -- 0x00 none
  KeyCode.mk 0 0 0x01 0x1B,           -- 0x01 ESC
  KeyCode.mk 0x31 0x21 0x02 0x31,     -- 0x02 digit 1 / bang
  KeyCode.mk 0x32 0x40 0x03 0x32,     -- 0x03 digit 2 / at
  KeyCode.mk 0x33 0x23 0x04 0x33,     -- 0x04 digit 3 / hash
  KeyCode.mk 0x34 0x24 0x05 0x34,     -- 0x05 digit 4 / dollar
  KeyCode.mk 0x35 0x25 0x06 0x35,     -- 0x06 digit 5 / percent
  KeyCode.mk 0x36 0x5E 0x07 0x36,     -- 0x07 digit 6 / caret
  KeyCode.mk 0x37 0x26 0x08 0x37,     -- 0x08 digit 7 / ampersand
  KeyCode.mk 0x38 0x2A 0x09 0x38,     -- 0x09 digit 8 / star
  KeyCode.mk 0x39 0x28 0x0A 0x39,     -- 0x0A digit 9 / lparen
  KeyCode.mk 0x30 0x29 0x0B 0x30,     -- 0x0B digit 0 / rparen
  KeyCode.mk 0x2D 0x5F 0x0C 0xBD,     -- 0x0C minus / underscore
  KeyCode.mk 0x3D 0x2B 0x0D 0xBB,     -- 0x0D equals / plus
  KeyCode.mk 0x08 0x08 0x0E 0x08,     -- 0x0E backspace
  KeyCode.mk 0 0 0x0F 0x09,           -- 0x0F TAB
  KeyCode.mk 0x71 0x51 0x10 0x51,     -- 0x10 q
  KeyCode.mk 0x77 0x57 0x11 0x57,     -- 0x11 w
  KeyCode.mk 0x65 0x45 0x12 0x45,     -- 0x12 e
  KeyCode.mk 0x72 0x52 0x13 0x52,     -- 0x13 r
  KeyCode.mk 0x74 0x54 0x14 0x54,     -- 0x14 t
  KeyCode.mk 0x79 0x59 0x15 0x59,     -- 0x15 y
  KeyCode.mk 0x75 0x55 0x16 0x55,     -- 0x16 u
  KeyCode.mk 0x69 0x49 0x17 0x49,     -- 0x17 i
  KeyCode.mk 0x6F 0x4F 0x18 0x4F,     -- 0x18 o
  KeyCode.mk 0x70 0x50 0x19 0x50,     -- 0x19 p
  KeyCode.mk 0x5B 0x7B 0x1A 0xDB,     -- 0x1A lbracket / lbrace
  KeyCode.mk 0x5D 0x7D 0x1B 0xDD,     -- 0x1B rbracket / rbrace
  KeyCode.mk 0x0A 0x0A 0x1C 0x0D,     -- 0x1C CR/LF
  KeyCode.mk 0 0 0x1D 0x11,           -- 0x1D left Ctrl
  KeyCode.mk 0x61 0x41 0x1E 0x41,     -- 0x1E a
  KeyCode.mk 0x73 0x53 0x1F 0x53,     -- 0x1F s
  KeyCode.mk 0x64 0x44 0x20 0x44,     -- 0x20 d
  KeyCode.mk 0x66 0x46 0x21 0x46,     -- 0x21 f
  KeyCode.mk 0x67 0x47 0x22 0x47,     -- 0x22 g
  KeyCode.mk 0x68 0x48 0x23 0x48,     -- 0x23 h
  KeyCode.mk 0x6A 0x4A 0x24 0x4A,     -- 0x24 j
  KeyCode.mk 0x6B 0x4B 0x25 0x4B,     -- 0x25 k
  KeyCode.mk 0x6C 0x4C 0x26 0x4C,     -- 0x26 l
  KeyCode.mk 0x3B 0x3A 0x27 0xBA,     -- 0x27 semicolon / colon
  KeyCode.mk 0x27 0x22 0x28 0xDE,     -- 0x28 quote / double quote
  KeyCode.mk 0x60 0x7E 0x29 0xC0,     -- 0x29 backtick / tilde
  KeyCode.mk 0 0 0x2A 0x10,           -- 0x2A left SHIFT
  KeyCode.mk 0x5C 0x7C 0x2B 0xDC,     -- 0x2B backslash / pipe
  KeyCode.mk 0x7A 0x5A 0x2C 0x5A,     -- 0x2C z
  KeyCode.mk 0x78 0x58 0x2D 0x58,     -- 0x2D x
  KeyCode.mk 0x63 0x43 0x2E 0x43,     -- 0x2E c
  KeyCode.mk 0x76 0x56 0x2F 0x56,     -- 0x2F v
  KeyCode.mk 0x62 0x42 0x30 0x42,     -- 0x30 b
  KeyCode.mk 0x6E 0x4E 0x31 0x4E,     -- 0x31 n
  KeyCode.mk 0x6D 0x4D 0x32 0x4D,     -- 0x32 m
  KeyCode.mk 0x2C 0x3C 0x33 0xBC,     -- 0x33 comma / less-than
  KeyCode.mk 0x2E 0x3E 0x34 0xBE,     -- 0x34 period / greater-than
  KeyCode.mk 0x2F 0x3F 0x35 0xBF,     -- 0x35 slash / question mark
  KeyCode.mk 0 0 0x36 0x10,           -- 0x36 right SHIFT
  KeyCode.mk 0x2A 0x2A 0x37 0x6A,     -- 0x37 keypad star
  KeyCode.mk 0 0 0x38 0x12,           -- 0x38 ALT
  KeyCode.mk 0x20 0 0x39 0x20,        -- 0x39 space
  KeyCode.mk 0 0 0x3A 0x14,           -- 0x3A CapsLock
  KeyCode.mk 0 0 0x3B 0x70,           -- 0x3B F1
  KeyCode.mk 0 0 0x3C 0x71,           -- 0x3C F2
  KeyCode.mk 0 0 0x3D 0x72,           -- 0x3D F3
  KeyCode.mk 0 0 0x3E 0x73,           -- 0x3E F4
  KeyCode.mk 0 0 0x3F 0x74,           -- 0x3F F5
  KeyCode.mk 0 0 0x40 0x75,           -- 0x40 F6
  KeyCode.mk 0 0 0x41 0x76,           -- 0x41 F7
  KeyCode.mk 0 0 0x42 0x77,           -- 0x42 F8
  KeyCode.mk 0 0 0x43 0x78,           -- 0x43 F9
  KeyCode.mk 0 0 0x44 0x79,           -- 0x44 F10
  KeyCode.mk 0 0 0x45 0x90,           -- 0x45 NumLock
  KeyCode.mk 0 0 0x46 0x91,           -- 0x46 ScrLock
  KeyCode.mk 0 0 0x47 0x24,           -- 0x47 Home
  KeyCode.mk 0 0 0x48 0x26,           -- 0x48 Up
  KeyCode.mk 0 0 0x49 0x21,           -- 0x49 PgUp
  KeyCode.mk 0 0 0x4A 0x6D,           -- 0x4A keypad minus
  KeyCode.mk 0 0 0x4B 0x25,           -- 0x4B Left
  KeyCode.mk 0 0 0x4C 0x0C,           -- 0x4C MID
  KeyCode.mk 0 0 0x4D 0x27,           -- 0x4D Right
  KeyCode.mk 0 0 0x4E 0x6B,           -- 0x4E keypad plus
  KeyCode.mk 0 0 0x4F 0x23,           -- 0x4F End
  KeyCode.mk 0 0 0x50 0x28,           -- 0x50 Down
  KeyCode.mk 0 0 0x51 0x22,           -- 0x51 PgDown
  KeyCode.mk 0 0 0x52 0x2D,           -- 0x52 Insert
  KeyCode.mk 0x7F 0x7F 0x53 0x2E,     -- 0x53 Del
  KeyCode.mk 0x0A 0x0A 0x54 0x0D,     -- 0x54 Enter
  KeyCode.mk 0 0 0 0,                 -- 0x55 unknown
  KeyCode.mk 0 0 0 0,                 -- 0x56 unknown
  KeyCode.mk 0 0 0x57 0x7A,           -- 0x57 F11
  KeyCode.mk 0 0 0x58 0x7B,           -- 0x58 F12
  KeyCode.mk 0 0 0 0,                 -- 0x59 unknown
  KeyCode.mk 0 0 0 0,                 -- 0x5A unknown
  KeyCode.mk 0 0 0x5B 0x5B,           -- 0x5B LeftWin
  KeyCode.mk 0 0 0x5C 0x5C,           -- 0x5C RightWin
  KeyCode.mk 0 0 0x5D 0x5D            -- 0x5D Apps
]

/-- Function `decode` reads the modifier flags of the (global) keyboard state and
translates one scancode; the Rust `match scancode { 0..=0x5D => .., _ => None }`
becomes the range test. -/
def decode (kb : KeyBoard) (scancode : Nat) : Option Nat :=
  let is_shifted := kb.is_shifted
  let is_capslock := kb.is_capslock
  if scancode ≤ 0x5D then
    if Bool.xor is_shifted is_capslock then
      some (List.getD KEY_MAP scancode ⟨0, 0, 0, 0⟩).ascii2
    else
      some (List.getD KEY_MAP scancode ⟨0, 0, 0, 0⟩).ascii1
  else
    none

/-- One step of the interrupt handler: the scancode read from port 0x60
is the argument; the global state is passed and returned explicitly. -/
def keyboard_intrrupt_handler (kb : KeyBoard) (scancode : Nat) : KeyBoard :=
  let kb1 := kb.check_status_n_change scancode
  match decode kb1 scancode with
  | some c => { kb1 with buffer := kb1.buffer.write c }
  | none => kb1

/-! ### Derived notions used by the statements -/

/-- The bounds invariant on buffer indices (what makes the Rust array
indexing in `read`/`write` in bounds). -/
def RingBuffer.wf (self : RingBuffer) : Prop :=
  self.head < BUFFER_SIZE ∧ self.tail < BUFFER_SIZE

instance (self : RingBuffer) : Decidable self.wf := by
  unfold RingBuffer.wf; infer_instance

/-- Abstraction: the queue contents, oldest first. -/
def RingBuffer.toList (self : RingBuffer) : List Nat :=
  (List.range ((self.tail + BUFFER_SIZE - self.head) % BUFFER_SIZE)).map
    (fun i => self.inner ((self.head + i) % BUFFER_SIZE))

def RingBuffer.writeAll (self : RingBuffer) (l : List Nat) : RingBuffer :=
  l.foldl RingBuffer.write self

/-- Perform `n` reads, collecting each result. -/
def RingBuffer.readOut : RingBuffer → Nat → List (Option Nat)
  | _, 0 => []
  | st, n + 1 =>
    let r := st.read
    r.1 :: r.2.readOut n

/-- Scancode/output pairs for the 26 letter keys together with the shifted
(upper-case) table byte. -/
def alphaShiftPairs : List (Nat × Nat) :=
  [(0x10, 0x51), (0x11, 0x57), (0x12, 0x45), (0x13, 0x52), (0x14, 0x54),
   (0x15, 0x59), (0x16, 0x55), (0x17, 0x49), (0x18, 0x4F), (0x19, 0x50),
   (0x1E, 0x41), (0x1F, 0x53), (0x20, 0x44), (0x21, 0x46), (0x22, 0x47),
   (0x23, 0x48), (0x24, 0x4A), (0x25, 0x4B), (0x26, 0x4C), (0x2C, 0x5A),
   (0x2D, 0x58), (0x2E, 0x43), (0x2F, 0x56), (0x30, 0x42), (0x31, 0x4E),
   (0x32, 0x4D)]

/-! ### Basic lemmas about the ring buffer -/

theorem read_eq (st : RingBuffer) :
    st.read = if st.head = st.tail then (none, st)
      else (some (st.inner st.head), { st with head := (st.head + 1) % BUFFER_SIZE }) := rfl

theorem write_eq (st : RingBuffer) (d : Nat) :
    st.write d = if (st.tail + 1) % BUFFER_SIZE = st.head then st
      else { st with inner := fun i => if i = st.tail then d else st.inner i,
                     tail := (st.tail + 1) % BUFFER_SIZE } := rfl

theorem toList_length (st : RingBuffer) :
    st.toList.length = (st.tail + BUFFER_SIZE - st.head) % BUFFER_SIZE := by
  simp [RingBuffer.toList]

theorem toList_length_lt (st : RingBuffer) : st.toList.length < BUFFER_SIZE := by
  rw [toList_length]
  exact Nat.mod_lt _ (by simp [BUFFER_SIZE])

theorem toList_getElem (st : RingBuffer) (i : Nat) (hi : i < st.toList.length) :
    st.toList[i] = st.inner ((st.head + i) % BUFFER_SIZE) := by
  simp [RingBuffer.toList]

theorem new_wf : RingBuffer.new.wf := by
  constructor <;> simp [RingBuffer.new, BUFFER_SIZE]

theorem toList_new : RingBuffer.new.toList = [] := rfl

theorem empty_length_iff (st : RingBuffer) (hwf : st.wf) :
    st.toList.length = 0 ↔ st.head = st.tail := by
  obtain ⟨h1, h2⟩ := hwf
  rw [toList_length]
  simp only [BUFFER_SIZE] at *
  omega

theorem full_length_iff (st : RingBuffer) (hwf : st.wf) :
    st.toList.length = BUFFER_SIZE - 1 ↔ (st.tail + 1) % BUFFER_SIZE = st.head := by
  obtain ⟨h1, h2⟩ := hwf
  rw [toList_length]
  simp only [BUFFER_SIZE] at *
  omega

theorem write_wf (st : RingBuffer) (d : Nat) (hwf : st.wf) : (st.write d).wf := by
  obtain ⟨h1, h2⟩ := hwf
  rw [write_eq]
  split
  · exact ⟨h1, h2⟩
  · exact ⟨h1, Nat.mod_lt _ (by simp [BUFFER_SIZE])⟩

theorem read_wf (st : RingBuffer) (hwf : st.wf) : st.read.2.wf := by
  obtain ⟨h1, h2⟩ := hwf
  rw [read_eq]
  split
  · exact ⟨h1, h2⟩
  · exact ⟨Nat.mod_lt _ (by simp [BUFFER_SIZE]), h2⟩

theorem write_full_id (st : RingBuffer) (d : Nat)
    (h : (st.tail + 1) % BUFFER_SIZE = st.head) : st.write d = st := by
  rw [write_eq, if_pos h]

theorem write_not_full_tail (st : RingBuffer) (d : Nat) (hwf : st.wf)
    (h : (st.tail + 1) % BUFFER_SIZE ≠ st.head) : (st.write d).tail ≠ st.tail := by
  obtain ⟨h1, h2⟩ := hwf
  rw [write_eq, if_neg h]
  simp only [BUFFER_SIZE] at *
  omega

theorem toList_read_cons (st : RingBuffer) (hwf : st.wf) (h : st.head ≠ st.tail) :
    st.toList = st.inner st.head :: st.read.2.toList ∧ st.read.1 = some (st.inner st.head) := by
  obtain ⟨h1, h2⟩ := hwf
  simp only [BUFFER_SIZE] at h1 h2
  have hr : st.read = (some (st.inner st.head), { st with head := (st.head + 1) % BUFFER_SIZE }) := by
    simp [RingBuffer.read, h]
  refine ⟨?_, by rw [hr]⟩
  rw [hr]
  unfold RingBuffer.toList
  simp only [BUFFER_SIZE]
  have hlen : (st.tail + 128 - st.head) % 128
      = (st.tail + 128 - (st.head + 1) % 128) % 128 + 1 := by omega
  rw [hlen, List.range_succ_eq_map, List.map_cons]
  congr 1
  · rw [Nat.add_zero, Nat.mod_eq_of_lt h1]
  · rw [List.map_map]
    apply List.map_congr_left
    intro i hi
    simp only [Function.comp_apply]
    congr 1
    omega

theorem toList_write_app (st : RingBuffer) (d : Nat) (hwf : st.wf)
    (h : (st.tail + 1) % BUFFER_SIZE ≠ st.head) :
    (st.write d).toList = st.toList ++ [d] := by
  obtain ⟨h1, h2⟩ := hwf
  simp only [BUFFER_SIZE] at h1 h2 h
  have hw : st.write d = { st with inner := fun i => if i = st.tail then d else st.inner i,
                                   tail := (st.tail + 1) % BUFFER_SIZE } := by
    rw [write_eq, if_neg (by simpa [BUFFER_SIZE] using h)]
  rw [hw]
  unfold RingBuffer.toList
  simp only [BUFFER_SIZE]
  have hlen : ((st.tail + 1) % 128 + 128 - st.head) % 128
      = (st.tail + 128 - st.head) % 128 + 1 := by omega
  rw [hlen, List.range_succ, List.map_append, List.map_singleton]
  congr 1
  · apply List.map_congr_left
    intro i hi
    rw [List.mem_range] at hi
    rw [if_neg (by omega)]
  · rw [if_pos (by omega)]

theorem writeAll_spec (l : List Nat) : ∀ st : RingBuffer, st.wf →
    (st.writeAll l).toList = st.toList ++ l.take ((BUFFER_SIZE - 1) - st.toList.length) ∧
      (st.writeAll l).wf := by
  induction l with
  | nil => intro st hwf; simpa [RingBuffer.writeAll] using hwf
  | cons d rest ih =>
    intro st hwf
    have hstep : st.writeAll (d :: rest) = (st.write d).writeAll rest := by
      simp [RingBuffer.writeAll]
    by_cases hfull : (st.tail + 1) % BUFFER_SIZE = st.head
    · have hid : st.write d = st := write_full_id st d hfull
      have hlen : st.toList.length = BUFFER_SIZE - 1 := (full_length_iff st hwf).2 hfull
      obtain ⟨ih1, ih2⟩ := ih st hwf
      rw [hstep, hid]
      refine ⟨?_, ih2⟩
      rw [ih1, hlen]
      simp
    · have hwf2 : (st.write d).wf := write_wf st d hwf
      have happ : (st.write d).toList = st.toList ++ [d] := toList_write_app st d hwf hfull
      obtain ⟨ih1, ih2⟩ := ih (st.write d) hwf2
      rw [hstep]
      refine ⟨?_, ih2⟩
      rw [ih1, happ]
      have hlt : st.toList.length < BUFFER_SIZE - 1 := by
        have := toList_length_lt st
        have hne : st.toList.length ≠ BUFFER_SIZE - 1 := fun hc =>
          hfull ((full_length_iff st hwf).1 hc)
        simp only [BUFFER_SIZE] at *
        omega
      have htake : (d :: rest).take ((BUFFER_SIZE - 1) - st.toList.length)
          = d :: rest.take ((BUFFER_SIZE - 1) - (st.toList.length + 1)) := by
        have hs : (BUFFER_SIZE - 1) - st.toList.length
            = ((BUFFER_SIZE - 1) - (st.toList.length + 1)) + 1 := by
          simp only [BUFFER_SIZE] at *
          omega
        rw [hs, List.take_succ_cons]
      rw [htake]
      simp

theorem readOut_spec : ∀ (n : Nat) (st : RingBuffer), st.wf → st.toList.length = n →
    st.readOut (n + 1) = st.toList.map some ++ [none] := by
  intro n
  induction n with
  | zero =>
    intro st hwf hlen
    have hempty : st.head = st.tail := (empty_length_iff st hwf).1 hlen
    have hnil : st.toList = [] := List.eq_nil_of_length_eq_zero hlen
    have hread : st.read = (none, st) := by rw [read_eq, if_pos hempty]
    simp [RingBuffer.readOut, hread, hnil]
  | succ m ih =>
    intro st hwf hlen
    have hne : st.head ≠ st.tail := by
      intro hc
      rw [(empty_length_iff st hwf).2 hc] at hlen
      omega
    obtain ⟨hcons, hfst⟩ := toList_read_cons st hwf hne
    have hwf2 : st.read.2.wf := read_wf st hwf
    have hlen2 : st.read.2.toList.length = m := by
      have := congrArg List.length hcons
      rw [hlen] at this
      simpa using this.symm
    have hro : st.readOut (m + 1 + 1) = st.read.1 :: st.read.2.readOut (m + 1) := rfl
    rw [hro, ih st.read.2 hwf2 hlen2, hfst, hcons]
    simp

theorem decode_eq (kb : KeyBoard) (sc : Nat) :
    decode kb sc = if sc ≤ 0x5D then
        (if Bool.xor kb.is_shifted kb.is_capslock then
          some (List.getD KEY_MAP sc ⟨0, 0, 0, 0⟩).ascii2
        else
          some (List.getD KEY_MAP sc ⟨0, 0, 0, 0⟩).ascii1)
      else none := rfl

theorem handler_eq (kb : KeyBoard) (sc : Nat) :
    keyboard_intrrupt_handler kb sc =
      match decode (kb.check_status_n_change sc) sc with
      | some c => { kb.check_status_n_change sc with
                      buffer := (kb.check_status_n_change sc).buffer.write c }
      | none => kb.check_status_n_change sc := rfl

/-! ### The claims -/

/-- Claim C1: the claim says `decode` returns `None` whenever the selected
table byte is the sentinel 0. The code has no such filter: for the in-range
scancode 0x01 (ESC, whose table bytes are both 0) it returns `some 0`,
exposing the missing sentinel check. -/
theorem claim_C1_sentinel_returned : decode KeyBoard.new 0x01 = some 0 := rfl

/-- Claim C2: the claim says a shift-make scancode never writes a unit into
the ring buffer. In the code, `decode 0x2A` yields `some 0` (the sentinel is
not filtered), so the handler step on 0x2A pushes the byte 0: the buffer goes
from empty (read gives `none`) to holding one unit (read gives `some 0`). -/
theorem claim_C2_shift_make_buffers_zero :
    (keyboard_intrrupt_handler KeyBoard.new 0x2a).buffer.read.1 = some 0 ∧
      KeyBoard.new.buffer.read.1 = none := ⟨rfl, rfl⟩

/-- Claim C3: the claim says break scancode 0xB6 clears the right-shift
latch. In the code the arm intended for 0xB6 was written `0x36` (duplicate of
the make arm, hence unreachable), so 0xB6 falls to the wildcard and the latch
stays set: after make 0x36 then break 0xB6 it is still `true`. -/
theorem claim_C3_right_shift_break_ignored :
    ((KeyBoard.new.check_status_n_change 0x36).check_status_n_change 0xb6).is_shifted_r
      = true := rfl

/-- Claim C4, counterexample: with caps-lock active (after make 0x3A) and no
shift held, the code decodes the digit-1 key 0x02 to the shifted symbol 0x21
(bang), not to the unshifted 0x31 the claim requires. -/
theorem claim_C4_counterexample :
    decode (KeyBoard.new.check_status_n_change 0x3a) 0x02 = some 0x21 ∧
      (0x21 : Nat) ≠ (0x31 : Nat) := ⟨rfl, by decide⟩

/-- Claim C4, amended: with caps-lock active and no shift held, case
inversion selects the shifted table entry for every key, so alphabetic keys
decode to their upper-case letters and numeric/punctuation keys decode to
their shifted symbols as well (0x02 gives 0x21, not 0x31). -/
theorem claim_C4_amended (st : KeyBoard) (h1 : st.is_capslock = true)
    (h2 : st.is_shifted_l = false) (h3 : st.is_shifted_r = false) :
    (∀ p ∈ alphaShiftPairs, decode st p.1 = some p.2) ∧ decode st 0x02 = some 0x21 := by
  have hx : Bool.xor st.is_shifted st.is_capslock = true := by
    simp [KeyBoard.is_shifted, h1, h2, h3]
  have hsel : ∀ sc : Nat, sc ≤ 0x5D →
      decode st sc = some (List.getD KEY_MAP sc ⟨0, 0, 0, 0⟩).ascii2 := by
    intro sc hsc
    rw [decode_eq, if_pos hsc]
    simp [hx]
  constructor
  · intro p hp
    have hb : p.1 ≤ 0x5D ∧ (List.getD KEY_MAP p.1 ⟨0, 0, 0, 0⟩).ascii2 = p.2 := by
      fin_cases hp <;> exact ⟨by decide, rfl⟩
    rw [hsel p.1 hb.1, hb.2]
  · rw [hsel 0x02 (by decide)]
    rfl

/-- Claim C4, witness: the amended statement applied to the state reached by
the caps-lock make scancode 0x3A from the initial state. -/
theorem claim_C4_amended_witness :
    (KeyBoard.new.check_status_n_change 0x3a).is_capslock = true ∧
    (KeyBoard.new.check_status_n_change 0x3a).is_shifted_l = false ∧
    (KeyBoard.new.check_status_n_change 0x3a).is_shifted_r = false ∧
    decode (KeyBoard.new.check_status_n_change 0x3a) 0x02 = some 0x21 :=
  ⟨rfl, rfl, rfl, (claim_C4_amended (KeyBoard.new.check_status_n_change 0x3a) rfl rfl rfl).2⟩

/-- Claim C5, counterexample: scancode 0xAA lies outside the table range
(0xAA is greater than 0x5D), yet a handler step on it clears the left-shift
latch, so the modifier state is not left unchanged as the claim requires. -/
theorem claim_C5_counterexample :
    (0x5D : Nat) < 0xaa ∧
    (KeyBoard.new.check_status_n_change 0x2a).is_shifted_l = true ∧
    (keyboard_intrrupt_handler (KeyBoard.new.check_status_n_change 0x2a) 0xaa).is_shifted_l
      = false := ⟨by decide, rfl, rfl⟩

/-- Claim C5, amended: for every driver state and every scancode outside the
valid table range, one handler step writes nothing into the ring buffer; the
caps-lock and right-shift latches are unchanged (the right-shift break 0xB6
is ignored because its match arm is unreachable), and the left-shift latch is
unchanged for every such scancode except 0xAA, the left-shift break, which
clears it. -/
theorem claim_C5_amended (st : KeyBoard) (sc : Nat) (h1 : 0x5D < sc) (h2 : sc < 0x100) :
    (keyboard_intrrupt_handler st sc).buffer = st.buffer ∧
    (keyboard_intrrupt_handler st sc).is_capslock = st.is_capslock ∧
    (keyboard_intrrupt_handler st sc).is_shifted_r = st.is_shifted_r ∧
    (sc ≠ 0xaa → (keyboard_intrrupt_handler st sc).is_shifted_l = st.is_shifted_l) ∧
    (sc = 0xaa → (keyboard_intrrupt_handler st sc).is_shifted_l = false) := by
  have hd : decode (st.check_status_n_change sc) sc = none := by
    rw [decode_eq, if_neg (by omega)]
  have hcheck : keyboard_intrrupt_handler st sc = st.check_status_n_change sc := by
    rw [handler_eq, hd]
  rw [hcheck]
  unfold KeyBoard.check_status_n_change
  rw [if_neg (by omega), if_neg (by omega), if_neg (by omega)]
  by_cases haa : sc = 0xaa
  · rw [if_pos haa]
    exact ⟨rfl, rfl, rfl, fun hc => absurd haa hc, fun _ => rfl⟩
  · rw [if_neg haa, if_neg (by omega)]
    exact ⟨rfl, rfl, rfl, fun _ => rfl, fun hc => absurd hc haa⟩

/-- Claim C5, witness: the amended statement applied to the initial state and
the out-of-range scancode 0xFE. -/
theorem claim_C5_amended_witness :
    (0x5D : Nat) < 0xfe ∧ (0xfe : Nat) < 0x100 ∧
    (keyboard_intrrupt_handler KeyBoard.new 0xfe).buffer = KeyBoard.new.buffer :=
  ⟨by decide, by decide, (claim_C5_amended KeyBoard.new 0xfe (by decide) (by decide)).1⟩

/-- Claim C6: method `write` drops the unit and changes nothing when the candidate
tail position equals `head` (buffer full); otherwise it stores the unit at
the old tail, advances tail modulo the capacity, and leaves the head and all
other slots unchanged. -/
theorem claim_C6_write_contract (st : RingBuffer) (d : Nat) :
    ((st.tail + 1) % BUFFER_SIZE = st.head → st.write d = st) ∧
    ((st.tail + 1) % BUFFER_SIZE ≠ st.head →
      (st.write d).head = st.head ∧
      (st.write d).tail = (st.tail + 1) % BUFFER_SIZE ∧
      (st.write d).inner st.tail = d ∧
      ∀ i, i ≠ st.tail → (st.write d).inner i = st.inner i) := by
  constructor
  · exact write_full_id st d
  · intro h
    rw [write_eq, if_neg h]
    refine ⟨rfl, rfl, by simp, ?_⟩
    intro i hi
    simp [hi]

/-- Claim C6, witness: writing into the empty initial buffer takes the
not-full branch and advances the tail. -/
theorem claim_C6_write_contract_witness :
    (RingBuffer.new.tail + 1) % BUFFER_SIZE ≠ RingBuffer.new.head ∧
    (RingBuffer.new.write 7).tail = (RingBuffer.new.tail + 1) % BUFFER_SIZE :=
  ⟨by decide, ((claim_C6_write_contract RingBuffer.new 7).2 (by decide)).2.1⟩

/-- Claim C7: starting from the empty buffer, after writing any sequence of
at most capacity minus one units, the subsequent reads return exactly the
written units, oldest first, as `some` values, and the next read returns
`none`. -/
theorem claim_C7_fifo (l : List Nat) (h : l.length ≤ BUFFER_SIZE - 1) :
    (RingBuffer.new.writeAll l).readOut (l.length + 1) = l.map some ++ [none] := by
  obtain ⟨h1, h2⟩ := writeAll_spec l RingBuffer.new new_wf
  have h3 : (RingBuffer.new.writeAll l).toList = l := by
    rw [h1, toList_new]
    simp only [List.length_nil, Nat.sub_zero, List.nil_append]
    exact List.take_of_length_le h
  have h4 := readOut_spec l.length (RingBuffer.new.writeAll l) h2 (by rw [h3])
  rw [h3] at h4
  exact h4

/-- Claim C7, witness: the FIFO statement applied to the concrete write
sequence 1, 2, 3. -/
theorem claim_C7_fifo_witness :
    ([1, 2, 3] : List Nat).length ≤ BUFFER_SIZE - 1 ∧
    (RingBuffer.new.writeAll [1, 2, 3]).readOut (([1, 2, 3] : List Nat).length + 1)
      = ([1, 2, 3] : List Nat).map some ++ [none] :=
  ⟨by decide, claim_C7_fifo [1, 2, 3] (by decide)⟩

/-- Claim C8: writing capacity-or-more units into the empty buffer keeps
exactly the first capacity minus one of them and drops the rest; for every
well-formed state the occupancy is the head/tail distance modulo the
capacity and never exceeds capacity minus one; the buffer is empty exactly
when head equals tail, writes are dropped exactly when the candidate tail
equals head, and both operations preserve the invariant. -/
theorem claim_C8_overflow_invariants :
    (∀ l : List Nat, BUFFER_SIZE ≤ l.length →
        (RingBuffer.new.writeAll l).toList = l.take (BUFFER_SIZE - 1)) ∧
    (∀ st : RingBuffer, st.wf →
        st.toList.length = (st.tail + BUFFER_SIZE - st.head) % BUFFER_SIZE ∧
        st.toList.length ≤ BUFFER_SIZE - 1 ∧
        (st.toList = [] ↔ st.head = st.tail) ∧
        ((∀ d, st.write d = st) ↔ (st.tail + 1) % BUFFER_SIZE = st.head) ∧
        (∀ d, (st.write d).wf) ∧ st.read.2.wf) := by
  constructor
  · intro l _hl
    obtain ⟨h1, _⟩ := writeAll_spec l RingBuffer.new new_wf
    rw [h1, toList_new]
    simp
  · intro st hwf
    refine ⟨toList_length st, ?_, ?_, ?_, fun d => write_wf st d hwf, read_wf st hwf⟩
    · have := toList_length_lt st
      simp only [BUFFER_SIZE] at *
      omega
    · rw [← List.length_eq_zero]
      exact empty_length_iff st hwf
    · constructor
      · intro hall
        by_contra hc
        exact write_not_full_tail st 0 hwf hc (by rw [hall 0])
      · intro hfull d
        exact write_full_id st d hfull

set_option maxRecDepth 4000 in
/-- Claim C8, witness: 200 writes of the byte 7 into the empty buffer keep
the first 127 of them; the invariant facts are instantiated at the initial
state. -/
theorem claim_C8_overflow_invariants_witness :
    BUFFER_SIZE ≤ (List.replicate 200 (7 : Nat)).length ∧
    (RingBuffer.new.writeAll (List.replicate 200 (7 : Nat))).toList
      = (List.replicate 200 (7 : Nat)).take (BUFFER_SIZE - 1) ∧
    RingBuffer.new.wf ∧
    (RingBuffer.new.toList = [] ↔ RingBuffer.new.head = RingBuffer.new.tail) :=
  ⟨by simp [BUFFER_SIZE], claim_C8_overflow_invariants.1 _ (by simp [BUFFER_SIZE]),
   by decide, (claim_C8_overflow_invariants.2 RingBuffer.new (by decide)).2.2.1⟩

/-- Claim C9: from the initial all-false modifier state, processing the
left-shift make scancode 0x2A and then decoding scancode 0x02 yields the
shifted byte 0x21 (bang), while decoding 0x02 directly from the initial
state yields 0x31 (the digit 1). -/
theorem claim_C9_shift_then_digit :
    decode (KeyBoard.new.check_status_n_change 0x2a) 0x02 = some 0x21 ∧
      decode KeyBoard.new 0x02 = some 0x31 := ⟨rfl, rfl⟩

/-- Claim C10: the initial buffer satisfies the bounds invariant (head and
tail below the capacity), both `write` and `read` preserve it -- so the array
indexing they perform is in bounds -- and `decode` only indexes the table
with a scancode of at most 0x5D, which is below its 94 entries. -/
theorem claim_C10_bounds :
    RingBuffer.new.wf ∧
    (∀ (st : RingBuffer) (d : Nat), st.wf → (st.write d).wf) ∧
    (∀ st : RingBuffer, st.wf → st.read.2.wf) ∧
    (∀ sc : Nat, sc ≤ 0x5D → sc < List.length KEY_MAP) := by
  refine ⟨new_wf, fun st d h => write_wf st d h, fun st h => read_wf st h, ?_⟩
  intro sc hsc
  have hlen : List.length KEY_MAP = 94 := rfl
  omega

/-- Claim C10, witness: the invariant facts instantiated at the initial
state and at the caps-lock scancode 0x3A. -/
theorem claim_C10_bounds_witness :
    RingBuffer.new.wf ∧ (RingBuffer.new.write 5).wf ∧ RingBuffer.new.read.2.wf ∧
      (0x3a : Nat) ≤ 0x5D ∧ (0x3a : Nat) < List.length KEY_MAP :=
  ⟨claim_C10_bounds.1, claim_C10_bounds.2.1 RingBuffer.new 5 (by decide),
   claim_C10_bounds.2.2.1 RingBuffer.new (by decide),
   by decide, claim_C10_bounds.2.2.2 0x3a (by decide)⟩
